import Mathlib

/-!
Verification of the resume-driven job-link discovery pipeline in `src/app.py`.

Python strings are modelled by Lean `String`; the Python string operations used by
the program (`split` on a one-character separator, `replace(pat, "")`, `strip`,
`endswith`, slicing, the `in` substring test) are given structurally recursive
definitions over `String.data` so that every definition evaluates inside the kernel.

External collaborators (the HTTP HEAD request of the liveness check, the search
provider, the generative-model endpoint, the two document extractors) are modelled
as oracles passed in as functions; `none` / `Except.error` model a raised exception.
-/

/-- Python `s.split(sep)` for a one-character separator, on character lists:
splits at every occurrence of `sep`, keeping empty fields. -/
def splitChar (sep : Char) : List Char → List (List Char)
  | [] => [[]]
  | c :: rest =>
    if c = sep then [] :: splitChar sep rest
    else
      match splitChar sep rest with
      | [] => [[c]]
      | t :: ts => (c :: t) :: ts

/-- Python `s.split(sep)` for a one-character separator. -/
def pySplit (sep : Char) (s : String) : List String :=
  (splitChar sep s.data).map String.mk

/-- Worker for `pyReplaceDel`: left-to-right, non-overlapping removal of `pat`.
`skip` counts characters still to be consumed from an already-matched occurrence. -/
def removeAllAux (pat : List Char) : Nat → List Char → List Char
  | _, [] => []
  | skip+1, _ :: rest => removeAllAux pat skip rest
  | 0, c :: rest =>
    if pat.isPrefixOf (c :: rest) then removeAllAux pat (pat.length - 1) rest
    else c :: removeAllAux pat 0 rest

/-- Python `s.replace(pat, "")` for a non-empty pattern: removes every
occurrence of `pat`, scanning left to right without overlap. -/
def pyReplaceDel (pat : String) (s : String) : String :=
  String.mk (removeAllAux pat.data 0 s.data)

/-- ASCII whitespace as recognised by Python `str.strip()`. -/
def pyIsSpace (c : Char) : Bool :=
  c == ' ' || c == '\t' || c == '\n' || c == '\r' || c == '\x0b' || c == '\x0c'

/-- Python `s.strip()`: drop whitespace from both ends. -/
def pyStrip (s : String) : String :=
  String.mk (((s.data.dropWhile pyIsSpace).reverse.dropWhile pyIsSpace).reverse)

/-- Substring test on character lists: does `pat` occur inside `l`? -/
def listContains (pat : List Char) : List Char → Bool
  | [] => pat.isEmpty
  | c :: rest => pat.isPrefixOf (c :: rest) || listContains pat rest

/-- Python `pat in s` substring test. -/
def strContains (s pat : String) : Bool := listContains pat.data s.data

/-- Python `s.endswith(pat)` (case-sensitive, like the source). -/
def strEndsWith (s pat : String) : Bool := pat.data.reverse.isPrefixOf s.data.reverse

/-- Python slice `s[:n]`: the first `n` characters of `s`. -/
def pySlice (s : String) (n : Nat) : String := String.mk (s.data.take n)

/-- app.py lines 70-73: the block-list of generic job-board domains. -/
def excluded_domains : List String :=
  ["linkedin.com", "indeed.com", "glassdoor.com",
   "ziprecruiter.com", "monster.com", "simplyhired.com"]

/-- app.py lines 66-91: `is_valid_link`. The HTTP HEAD request is modelled by the
oracle `head`; `none` models any raised exception (timeout, DNS failure, malformed
URL) and `some code` a response with status `code`; the bare `except` clause of the
source turns any exception into `false`. -/
def is_valid_link (head : String → Option Nat) (url : String) : Bool :=
  if excluded_domains.any (fun domain => strContains url domain) then false
  else
    match head url with
    | some code => code == 200
    | none => false

/-- app.py line 96: the fixed ATS site-restriction disjunction. -/
def base_query : String :=
  "site:lever.co OR site:greenhouse.io OR site:myworkdayjobs.com OR site:smartrecruiters.com"

/-- app.py lines 93-105: `generate_search_queries`. The f-string
`f'{base_query} "{title}" {location_param} -intitle:archive -intitle:closed'`
is written as the corresponding concatenation. -/
def generate_search_queries (titles : List String) (remote_only : Bool) : List String :=
  titles.map (fun title =>
    base_query ++ " " ++ "\"" ++ title ++ "\"" ++ " " ++
      (if remote_only then "\"remote\"" else "") ++ " -intitle:archive -intitle:closed")

/-- app.py lines 46-57: the fixed instructional text placed before the resume text
in the Gemini prompt (the f-string up to `{text[:4000]}`). -/
def prompt_head : String :=
  "\n    You are an expert career coach. Analyze the following resume text.\n    Identify the top 3-5 relevant job titles this candidate is qualified for.\n    Also, identify their top 5 core technical skills.\n    \n    Return the response strictly in this format:\n    TITLES: Title 1, Title 2, Title 3\n    SKILLS: Skill 1, Skill 2, Skill 3\n    \n    Resume Text:\n    "

/-- app.py line 57: the text following `{text[:4000]}` in the prompt f-string. -/
def prompt_tail : String := "\n    "

/-- app.py lines 46-57: the prompt submitted to the model, with the resume text
truncated to its first 4000 characters by the slice `text[:4000]`. -/
def build_prompt (text : String) : String :=
  prompt_head ++ pySlice text 4000 ++ prompt_tail

/-- app.py lines 41-64: `analyze_resume_with_gemini`. The model endpoint is the
oracle `model`; `none` models an exception from `generate_content` (turned into a
`None` return by the `except` clause). -/
def analyze_resume_with_gemini (model : String → Option String) (text : String) :
    Option String :=
  model (build_prompt text)

/-- app.py lines 144-153: the parsing block applied to the model reply. -/
def parse_analysis (analysis : String) : List String × List String :=
  let lines := pySplit '\n' analysis
  let titles_line :=
    (lines.find? (fun line => strContains line "TITLES:")).getD "TITLES: Generalist"
  let skills_line :=
    (lines.find? (fun line => strContains line "SKILLS:")).getD "SKILLS: Python"
  let extracted_titles := (pySplit ',' (pyReplaceDel "TITLES:" titles_line)).map pyStrip
  let extracted_skills := (pySplit ',' (pyReplaceDel "SKILLS:" skills_line)).map pyStrip
  (extracted_titles, extracted_skills)

/-- Strip `marker` from the start of `line` when it is literally a leading
occurrence; otherwise leave the line unchanged. Used by `parse_reply_claim`. -/
def stripMarkerAtStart (marker line : String) : String :=
  if marker.data.isPrefixOf line.data then String.mk (line.data.drop marker.data.length)
  else line

/-- Parser written from the words of claim C3: scan the lines for the first line
containing each marker, strip the marker PREFIX from it, split the remainder on
commas, trim whitespace from each token. Compared against `parse_analysis`. -/
def parse_reply_claim (reply : String) : List String × List String :=
  let lines := pySplit '\n' reply
  let titles_line :=
    (lines.find? (fun line => strContains line "TITLES:")).getD "TITLES: Generalist"
  let skills_line :=
    (lines.find? (fun line => strContains line "SKILLS:")).getD "SKILLS: Python"
  ((pySplit ',' (stripMarkerAtStart "TITLES:" titles_line)).map pyStrip,
   (pySplit ',' (stripMarkerAtStart "SKILLS:" skills_line)).map pyStrip)

/-- First element of `lines` containing `marker`, or `fallback` when none does.
Used by `parse_reply_amended`. -/
def marker_line (marker fallback : String) : List String → String
  | [] => fallback
  | line :: rest => if strContains line marker then line else marker_line marker fallback rest

/-- Parser written from the amended words of C3: the first line containing each
marker is chosen (with the fixed fallbacks), EVERY occurrence of the marker is
removed from it (Python `str.replace` semantics), the remainder is split on commas
and each token trimmed. -/
def parse_reply_amended (reply : String) : List String × List String :=
  let lines := pySplit '\n' reply
  ((pySplit ',' (pyReplaceDel "TITLES:" (marker_line "TITLES:" "TITLES: Generalist" lines))).map pyStrip,
   (pySplit ',' (pyReplaceDel "SKILLS:" (marker_line "SKILLS:" "SKILLS: Python" lines))).map pyStrip)

/-- app.py lines 132-138: the extraction dispatch on the uploaded file's name.
`pdf_result` / `docx_result` are the values the two extractors would return
(`none` = the extractor caught a parse error and returned `None`). The OUTER
`none` models the branch in which neither suffix matches: `resume_text` is never
assigned and line 138 (`if resume_text:`) raises an uncaught NameError. -/
def extract_stage (name : String) (pdf_result docx_result : Option String) :
    Option (Option String) :=
  if strEndsWith name ".pdf" then some pdf_result
  else if strEndsWith name ".docx" then some docx_result
  else none

/-- The per-session cache (`st.session_state`): the two keys written by
app.py lines 152-153, `none` = key absent. -/
structure SessionState where
  job_titles : Option (List String)
  skills : Option (List String)
deriving DecidableEq

/-- A fresh session: neither key present. -/
def init_session : SessionState := ⟨none, none⟩

/-- Outcome of one run of the analysis stage: the session state afterwards and
how many calls to the analysis endpoint the run made. -/
structure StageResult where
  state : SessionState
  analyzer_calls : Nat
deriving DecidableEq

/-- app.py lines 140-153: one run of the analysis stage. The guard is
`if "job_titles" not in st.session_state`; `if analysis:` is Python truthiness,
so a `None` reply and an empty-string reply both leave the session unchanged. -/
def analysis_stage (model : String → Option String) (st : SessionState)
    (resume_text : String) : StageResult :=
  if st.job_titles.isSome then ⟨st, 0⟩
  else
    match analyze_resume_with_gemini model resume_text with
    | none => ⟨st, 1⟩
    | some analysis =>
      if analysis = "" then ⟨st, 1⟩
      else ⟨⟨some (parse_analysis analysis).1, some (parse_analysis analysis).2⟩, 1⟩

/-- A sequence of script reruns against one session: runs the analysis stage on
each resume text in order, threading the session state, and counts the total
number of analysis-endpoint calls. -/
def session_trace (model : String → Option String) : SessionState → List String → SessionState × Nat
  | st, [] => (st, 0)
  | st, t :: ts =>
    let r := analysis_stage model st t
    let rest := session_trace model r.state ts
    (rest.1, r.analyzer_calls + rest.2)

/-- app.py lines 192-196: one harvested link. -/
structure LinkResult where
  role : String
  source : String
  url : String
deriving DecidableEq

/-- app.py line 194: `url.split("/")[2]`; `none` models the IndexError raised
when the URL has fewer than three slash-separated segments. -/
def extract_domain (url : String) : Option String := (pySplit '/' url)[2]?

/-- app.py lines 189-196: the inner loop over one query's result URLs. Returns
the accumulated Link Results and `true`, or, when `url.split("/")[2]` raises,
the results accumulated before the raising URL and `false`. -/
def process_urls (head : String → Option Nat) (role : String) :
    List String → List LinkResult × Bool
  | [] => ([], true)
  | url :: rest =>
    if is_valid_link head url then
      match extract_domain url with
      | none => ([], false)
      | some dom =>
        let p := process_urls head role rest
        (⟨role, dom, url⟩ :: p.1, p.2)
    else process_urls head role rest

/-- Outcome of the Harvester loop: the Link Results returned, the queries that
were actually submitted to the search provider, and whether a warning was shown. -/
structure HarvestOutcome where
  results : List LinkResult
  attempted : List String
  warned : Bool
deriving DecidableEq

/-- app.py lines 180-204: the Harvester loop over index-aligned (title, query)
pairs. The search provider is the oracle `provider`; `Except.error` models a
raised exception, on which the loop warns and breaks, keeping what it has. -/
def run_queries (provider : String → Except Unit (List String))
    (head : String → Option Nat) : List (String × String) → HarvestOutcome
  | [] => ⟨[], [], false⟩
  | (role, query) :: rest =>
    match provider query with
    | .error _ => ⟨[], [query], true⟩
    | .ok urls =>
      let p := process_urls head role urls
      if p.2 then
        let h := run_queries provider head rest
        ⟨p.1 ++ h.results, query :: h.attempted, h.warned⟩
      else ⟨p.1, [query], true⟩

/-- app.py lines 175-204: the full Harvester as invoked by the app, pairing each
title with its generated query. -/
def harvest (provider : String → Except Unit (List String))
    (head : String → Option Nat) (titles : List String) (remote_only : Bool) :
    HarvestOutcome :=
  run_queries provider head (titles.zip (generate_search_queries titles remote_only))

/-- The Link Results one (title, query) pair contributes when its provider call
and URL processing succeed. -/
def query_results (provider : String → Except Unit (List String))
    (head : String → Option Nat) (p : String × String) : List LinkResult :=
  match provider p.2 with
  | .ok urls => (process_urls head p.1 urls).1
  | .error _ => []

/-- Invariant of claim C9: the two cached keys are either both absent or both
derived from one parse of one model reply. -/
def good_profile (st : SessionState) : Prop :=
  (st.job_titles = none ∧ st.skills = none) ∨
  ∃ reply : String,
    st.job_titles = some (parse_analysis reply).1 ∧
    st.skills = some (parse_analysis reply).2

/-! ### Helper lemmas about the string primitives -/

theorem isPrefixOf_eq_true_iff {pat l : List Char} :
    pat.isPrefixOf l = true ↔ ∃ t, pat ++ t = l := by
  induction pat generalizing l with
  | nil => simp [List.isPrefixOf]
  | cons a as ih =>
    cases l with
    | nil => simp [List.isPrefixOf]
    | cons b bs =>
      simp only [List.isPrefixOf, Bool.and_eq_true, beq_iff_eq, ih, List.cons_append,
        List.cons.injEq]
      constructor
      · rintro ⟨rfl, t, rfl⟩
        exact ⟨t, rfl, rfl⟩
      · rintro ⟨t, rfl, rfl⟩
        exact ⟨rfl, t, rfl⟩

theorem listContains_eq_true_iff {pat l : List Char} :
    listContains pat l = true ↔ ∃ x y, x ++ (pat ++ y) = l := by
  induction l with
  | nil =>
    constructor
    · intro h
      have hp : pat = [] := by simpa [listContains, List.isEmpty_iff] using h
      exact ⟨[], [], by simp [hp]⟩
    · rintro ⟨x, y, h⟩
      obtain ⟨hx, hpy⟩ := List.append_eq_nil.mp h
      obtain ⟨hp, -⟩ := List.append_eq_nil.mp hpy
      simp [listContains, List.isEmpty_iff, hp]
  | cons c rest ih =>
    simp only [listContains, Bool.or_eq_true, isPrefixOf_eq_true_iff, ih]
    constructor
    · rintro (⟨t, ht⟩ | ⟨x, y, hxy⟩)
      · exact ⟨[], t, by simpa using ht⟩
      · exact ⟨c :: x, y, by rw [List.cons_append, hxy]⟩
    · rintro ⟨x, y, hxy⟩
      cases x with
      | nil => exact Or.inl ⟨y, by simpa using hxy⟩
      | cons a as =>
        rw [List.cons_append] at hxy
        injection hxy with h1 h2
        exact Or.inr ⟨as, y, h2⟩

theorem strContains_of_eq {q l pat r : String} (hq : q = l ++ pat ++ r) :
    strContains q pat = true := by
  subst hq
  exact listContains_eq_true_iff.mpr
    ⟨l.data, r.data, by simp [String.data_append, List.append_assoc]⟩

theorem strContains_append_left {s pat : String} (t : String)
    (h : strContains s pat = true) : strContains (s ++ t) pat = true := by
  obtain ⟨x, y, hxy⟩ := listContains_eq_true_iff.mp h
  exact listContains_eq_true_iff.mpr
    ⟨x, y ++ t.data, by simp [String.data_append, ← hxy, List.append_assoc]⟩

theorem strContains_append_right (s : String) {t pat : String}
    (h : strContains t pat = true) : strContains (s ++ t) pat = true := by
  obtain ⟨x, y, hxy⟩ := listContains_eq_true_iff.mp h
  exact listContains_eq_true_iff.mpr
    ⟨s.data ++ x, y, by simp [String.data_append, ← hxy, List.append_assoc]⟩

theorem splitChar_ne_nil (sep : Char) (l : List Char) : splitChar sep l ≠ [] := by
  cases l with
  | nil => simp [splitChar]
  | cons c rest =>
    by_cases h : c = sep
    · simp [splitChar, h]
    · simp only [splitChar, if_neg h]
      cases hs : splitChar sep rest <;> simp

theorem pySplit_ne_nil (sep : Char) (s : String) : pySplit sep s ≠ [] := by
  simp [pySplit, splitChar_ne_nil]

theorem marker_line_eq (marker fallback : String) (lines : List String) :
    marker_line marker fallback lines =
      (lines.find? (fun line => strContains line marker)).getD fallback := by
  induction lines with
  | nil => rfl
  | cons line rest ih =>
    by_cases h : strContains line marker = true
    · simp [marker_line, h, List.find?_cons_of_pos]
    · simp only [Bool.not_eq_true] at h
      simp [marker_line, h, List.find?_cons_of_neg, ih]

/-! ### Claim theorems -/

/-- C1: `is_valid_link` is a total boolean function returning `true` iff the URL
contains none of the six blocked job-board domains and the HEAD liveness request
returns status exactly 200; it returns `false` for a blocked domain regardless of
status, and `false` when the request raises (`head url = none`) or returns
non-200. -/
theorem is_valid_link_C1 (head : String → Option Nat) (url : String) :
    is_valid_link head url = true ↔
      ((∀ domain ∈ excluded_domains, strContains url domain = false) ∧
        head url = some 200) := by
  unfold is_valid_link
  cases hany : excluded_domains.any (fun domain => strContains url domain) with
  | true =>
    obtain ⟨d, hd, hc⟩ := List.any_eq_true.mp hany
    have hc2 : strContains url d = true := hc
    simp only [hany, if_true, Bool.false_eq_true, false_iff, not_and]
    intro hall
    have hfalse := hall d hd
    rw [hc2] at hfalse
    exact absurd hfalse (by simp)
  | false =>
    have hall : ∀ domain ∈ excluded_domains, strContains url domain = false := by
      intro d hd
      have := List.any_eq_false.mp hany d hd
      simpa using this
    cases hh : head url with
    | none => simp [hany, hh]
    | some code =>
      simp only [hany, Bool.false_eq_true, if_false, hh, beq_iff_eq, Option.some.injEq]
      exact ⟨fun h => ⟨hall, h⟩, fun h => h.2⟩

/-- C1 witness: a live non-excluded URL is valid; a LinkedIn URL is not. -/
theorem is_valid_link_C1_witness :
    is_valid_link (fun _ => some 200) "https://boards.greenhouse.io/acme/jobs/1" = true ∧
    is_valid_link (fun _ => some 200) "https://www.linkedin.com/jobs/view/1" = false :=
  ⟨(is_valid_link_C1 (fun _ => some 200) "https://boards.greenhouse.io/acme/jobs/1").mpr
      ⟨by decide, rfl⟩,
    by decide⟩

/-- C3 counterexample: the claim says the parser strips the marker PREFIX from the
chosen line; the code instead removes EVERY occurrence of the marker
(`str.replace`). On the reply `"TITLES: A, TITLES: B\nSKILLS: X"` the code yields
titles `["A", "B"]` while the claim's described procedure yields
`["A", "TITLES: B"]`. -/
theorem parse_marker_counterexample_C3 :
    parse_analysis "TITLES: A, TITLES: B\nSKILLS: X" = (["A", "B"], ["X"]) ∧
    parse_reply_claim "TITLES: A, TITLES: B\nSKILLS: X" = (["A", "TITLES: B"], ["X"]) ∧
    parse_analysis "TITLES: A, TITLES: B\nSKILLS: X" ≠
      parse_reply_claim "TITLES: A, TITLES: B\nSKILLS: X" :=
  ⟨by decide, by decide, by decide⟩

/-- C3 (amended): the parser scans the reply's lines for the first line containing
`TITLES:` and the first containing `SKILLS:`, removes EVERY occurrence of the
marker from each (Python `str.replace` semantics, not only a leading prefix),
splits the remainder on commas and trims whitespace from each token, preserving
order and duplicates; in particular `"TITLES: A, B\nSKILLS: X, Y, Z"` yields
titles `["A", "B"]` and skills `["X", "Y", "Z"]`. -/
theorem parse_analysis_amended_C3 (reply : String) :
    parse_analysis reply = parse_reply_amended reply ∧
    parse_analysis "TITLES: A, B\nSKILLS: X, Y, Z" = (["A", "B"], ["X", "Y", "Z"]) := by
  refine ⟨?_, by decide⟩
  simp [parse_analysis, parse_reply_amended, marker_line_eq]

/-- C4: when no line of the reply contains `SKILLS:` the parsed skills default to
exactly `["Python"]`; when no line contains `TITLES:` the parsed titles default to
exactly `["Generalist"]`. -/
theorem parse_defaults_C4 (analysis : String) :
    ((∀ line ∈ pySplit '\n' analysis, strContains line "SKILLS:" = false) →
      (parse_analysis analysis).2 = ["Python"]) ∧
    ((∀ line ∈ pySplit '\n' analysis, strContains line "TITLES:" = false) →
      (parse_analysis analysis).1 = ["Generalist"]) := by
  constructor
  · intro h
    have hf : (pySplit '\n' analysis).find? (fun line => strContains line "SKILLS:") = none :=
      List.find?_eq_none.mpr (by intro x hx; simp [h x hx])
    simp only [parse_analysis, hf, Option.getD_none]
    decide
  · intro h
    have hf : (pySplit '\n' analysis).find? (fun line => strContains line "TITLES:") = none :=
      List.find?_eq_none.mpr (by intro x hx; simp [h x hx])
    simp only [parse_analysis, hf, Option.getD_none]
    decide

/-- C4 witness: a reply with neither marker gets both defaults. -/
theorem parse_defaults_C4_witness :
    (parse_analysis "hello").2 = ["Python"] ∧
    (parse_analysis "hello").1 = ["Generalist"] :=
  ⟨(parse_defaults_C4 "hello").1 (by decide), (parse_defaults_C4 "hello").2 (by decide)⟩

/-- C10: for every model reply the parsed titles and skills lists are each
non-empty, and therefore the query generator downstream returns at least one
query. -/
theorem parse_nonempty_C10 (analysis : String) (remote_only : Bool) :
    (parse_analysis analysis).1 ≠ [] ∧ (parse_analysis analysis).2 ≠ [] ∧
    generate_search_queries (parse_analysis analysis).1 remote_only ≠ [] := by
  obtain ⟨s, t, hst⟩ :
      ∃ s t, parse_analysis analysis =
        ((pySplit ',' s).map pyStrip, (pySplit ',' t).map pyStrip) := ⟨_, _, rfl⟩
  rw [hst]
  refine ⟨?_, ?_, ?_⟩
  · simp [pySplit, splitChar_ne_nil]
  · simp [pySplit, splitChar_ne_nil]
  · simp [generate_search_queries, pySplit, splitChar_ne_nil]

/-- C5: `generate_search_queries` returns exactly one query per title, in order;
the i-th query is the fixed concatenation of the ATS site-restriction disjunction,
the i-th title in double quotes, the quoted literal `"remote"` exactly when the
remote-only flag is set (the empty string otherwise), and the two exclusion terms,
and it therefore contains all four ATS-domain tokens, the quoted title and both
exclusion terms; a query generated with the flag unset does not contain the quoted
`"remote"` token. -/
theorem generate_search_queries_C5 (titles : List String) (remote_only : Bool) :
    ((generate_search_queries titles remote_only).length = titles.length ∧
      ∀ i : Nat, i < titles.length →
        ∃ t q, titles[i]? = some t ∧
          (generate_search_queries titles remote_only)[i]? = some q ∧
          q = base_query ++ " " ++ "\"" ++ t ++ "\"" ++ " " ++
              (if remote_only then "\"remote\"" else "") ++
              " -intitle:archive -intitle:closed" ∧
          strContains q "site:lever.co" = true ∧
          strContains q "site:greenhouse.io" = true ∧
          strContains q "site:myworkdayjobs.com" = true ∧
          strContains q "site:smartrecruiters.com" = true ∧
          strContains q ("\"" ++ t ++ "\"") = true ∧
          strContains q "-intitle:archive" = true ∧
          strContains q "-intitle:closed" = true ∧
          (remote_only = true → strContains q "\"remote\"" = true)) ∧
    (generate_search_queries ["Engineer"] false).all
      (fun q => ! strContains q "\"remote\"") = true := by
  refine ⟨⟨List.length_map _ _, ?_⟩, by decide⟩
  intro i hi
  refine ⟨titles[i],
    base_query ++ " " ++ "\"" ++ titles[i] ++ "\"" ++ " " ++
      (if remote_only then "\"remote\"" else "") ++ " -intitle:archive -intitle:closed",
    List.getElem?_eq_getElem hi, ?_, rfl, ?_, ?_, ?_, ?_, ?_, ?_, ?_, ?_⟩
  · simp [generate_search_queries, List.getElem?_map, List.getElem?_eq_getElem hi]
  · exact strContains_append_left _ (strContains_append_left _ (strContains_append_left _
      (strContains_append_left _ (strContains_append_left _ (strContains_append_left _
        (strContains_append_left _ (by decide)))))))
  · exact strContains_append_left _ (strContains_append_left _ (strContains_append_left _
      (strContains_append_left _ (strContains_append_left _ (strContains_append_left _
        (strContains_append_left _ (by decide)))))))
  · exact strContains_append_left _ (strContains_append_left _ (strContains_append_left _
      (strContains_append_left _ (strContains_append_left _ (strContains_append_left _
        (strContains_append_left _ (by decide)))))))
  · exact strContains_append_left _ (strContains_append_left _ (strContains_append_left _
      (strContains_append_left _ (strContains_append_left _ (strContains_append_left _
        (strContains_append_left _ (by decide)))))))
  · refine strContains_of_eq (l := base_query ++ " ")
      (r := " " ++ (if remote_only then "\"remote\"" else "") ++
        " -intitle:archive -intitle:closed") ?_
    simp only [String.append_assoc]
  · exact strContains_append_right _ (by decide)
  · exact strContains_append_right _ (by decide)
  · intro hr
    subst hr
    exact strContains_of_eq (l := base_query ++ " " ++ "\"" ++ titles[i] ++ "\"" ++ " ")
      (r := " -intitle:archive -intitle:closed") rfl

/-- C5 witness: one title, remote flag set, at index 0. -/
theorem generate_search_queries_C5_witness :
    (generate_search_queries ["Engineer"] true).length = 1 ∧
    (∃ t q, (["Engineer"] : List String)[0]? = some t ∧
      (generate_search_queries ["Engineer"] true)[0]? = some q ∧
      q = base_query ++ " " ++ "\"" ++ t ++ "\"" ++ " " ++ "\"remote\"" ++
          " -intitle:archive -intitle:closed" ∧
      strContains q "site:lever.co" = true ∧
      strContains q "site:greenhouse.io" = true ∧
      strContains q "site:myworkdayjobs.com" = true ∧
      strContains q "site:smartrecruiters.com" = true ∧
      strContains q ("\"" ++ t ++ "\"") = true ∧
      strContains q "-intitle:archive" = true ∧
      strContains q "-intitle:closed" = true ∧
      (true = true → strContains q "\"remote\"" = true)) ∧
    (generate_search_queries ["Engineer"] false).all
      (fun q => ! strContains q "\"remote\"") = true :=
  ⟨(generate_search_queries_C5 ["Engineer"] true).1.1,
   (generate_search_queries_C5 ["Engineer"] true).1.2 0 (by decide),
   (generate_search_queries_C5 ["Engineer"] true).2⟩

/-- C6: a resume text of at most 4000 characters is embedded unmodified in the
submitted prompt; for a longer text, exactly its first 4000 characters appear
between the fixed prompt head and tail and nothing beyond them. -/
theorem prompt_truncation_C6 (text : String) :
    (text.length ≤ 4000 → build_prompt text = prompt_head ++ text ++ prompt_tail) ∧
    (4000 < text.length →
      ∃ t : String, build_prompt text = prompt_head ++ t ++ prompt_tail ∧
        t.data = text.data.take 4000 ∧ t.length = 4000) := by
  constructor
  · intro h
    have htake : pySlice text 4000 = text := by
      cases text with
      | mk data => exact congrArg String.mk (List.take_of_length_le h)
    show prompt_head ++ pySlice text 4000 ++ prompt_tail = prompt_head ++ text ++ prompt_tail
    rw [htake]
  · intro h
    refine ⟨pySlice text 4000, rfl, rfl, ?_⟩
    show (text.data.take 4000).length = 4000
    rw [List.length_take]
    have h2 : 4000 < text.data.length := h
    omega

/-- C6 witness: a short text is embedded unmodified; a 4001-character text is cut
to its first 4000 characters. -/
theorem prompt_truncation_C6_witness :
    build_prompt "Hello" = prompt_head ++ "Hello" ++ prompt_tail ∧
    (∃ t : String, build_prompt (String.mk (List.replicate 4001 'a')) =
        prompt_head ++ t ++ prompt_tail ∧
      t.data = (String.mk (List.replicate 4001 'a')).data.take 4000 ∧ t.length = 4000) :=
  ⟨(prompt_truncation_C6 "Hello").1 (by decide),
   (prompt_truncation_C6 (String.mk (List.replicate 4001 'a'))).2 (by
      show 4000 < (List.replicate 4001 'a').length
      rw [List.length_replicate]
      decide)⟩

/-- C7: evaluation of the extraction dispatch at the failing input. An uploaded
file whose name ends in an uppercase `.PDF` matches neither case-sensitive
`endswith` branch, so `resume_text` is never assigned and `if resume_text:`
raises an uncaught NameError (modelled by `none`), contradicting the claim that
no failure can crash the run; the two lowercase suffixes dispatch normally. -/
theorem extract_dispatch_crash_C7 :
    extract_stage "RESUME.PDF" (some "resume text") (some "resume text") = none ∧
    extract_stage "resume.pdf" (some "resume text") none = some (some "resume text") ∧
    extract_stage "resume.docx" none (some "resume text") = some (some "resume text") :=
  ⟨by decide, by decide, by decide⟩

/-- C2: when the search provider succeeds on every pair in `good` (with no
IndexError in the per-URL processing) and raises on the next query, the
Harvester loop warns, attempts exactly the `good` queries followed by the
raising one, never attempts anything after it, and still returns every Link
Result accumulated from the `good` queries, in order. -/
theorem harvester_abandon_C2 (provider : String → Except Unit (List String))
    (head : String → Option Nat) (good : List (String × String)) (bad : String × String)
    (rest : List (String × String))
    (hgood : ∀ p ∈ good, ∃ urls, provider p.2 = Except.ok urls ∧
      (process_urls head p.1 urls).2 = true)
    (hbad : provider bad.2 = Except.error ()) :
    run_queries provider head (good ++ bad :: rest) =
      ⟨(good.map (query_results provider head)).flatten,
        good.map Prod.snd ++ [bad.2], true⟩ := by
  induction good with
  | nil =>
    cases bad with
    | mk role query => simpa [run_queries] using (by simp [run_queries, hbad])
  | cons p ps ih =>
    obtain ⟨urls, hok, hproc⟩ := hgood p (List.mem_cons_self p ps)
    have ihr := ih (fun q hq => hgood q (List.mem_cons_of_mem p hq))
    cases p with
    | mk role query =>
      simp only [List.cons_append, run_queries, hok, hproc, if_true, ihr]
      simp [query_results, hok, ihr]

/-- C2 witness: three queries, the provider raising on the second; only the
first query's (filtered) results come back and the third query is not attempted. -/
theorem harvester_abandon_C2_witness :
    run_queries
      (fun q => if q = "q2" then Except.error ()
        else Except.ok ["http://jobs.example/a", "https://www.linkedin.com/jobs/view/1"])
      (fun _ => some 200)
      [("T1", "q1"), ("T2", "q2"), ("T3", "q3")] =
      ⟨[⟨"T1", "jobs.example", "http://jobs.example/a"⟩], ["q1", "q2"], true⟩ :=
  (harvester_abandon_C2
      (fun q => if q = "q2" then Except.error ()
        else Except.ok ["http://jobs.example/a", "https://www.linkedin.com/jobs/view/1"])
      (fun _ => some 200)
      [("T1", "q1")] ("T2", "q2") [("T3", "q3")]
      (by
        intro p hp
        rw [List.mem_singleton] at hp
        subst hp
        exact ⟨_, rfl, by decide⟩)
      rfl).trans (by decide)

/-- C8: once the session has a cached Profile (the `job_titles` key is present),
a run of the analysis stage makes no call to the analysis endpoint and leaves
the session unchanged, whatever the uploaded document's text is; the same holds
across any sequence of subsequent runs. -/
theorem analyzer_cached_C8 (model : String → Option String) (st : SessionState)
    (text : String) (texts : List String) (h : st.job_titles.isSome = true) :
    analysis_stage model st text = ⟨st, 0⟩ ∧
    (session_trace model st texts).1 = st ∧ (session_trace model st texts).2 = 0 := by
  have hstage : ∀ t : String, analysis_stage model st t = ⟨st, 0⟩ := by
    intro t
    simp [analysis_stage, h]
  have htrace : ∀ ts : List String, session_trace model st ts = (st, 0) := by
    intro ts
    induction ts with
    | nil => rfl
    | cons t ts ih => simp [session_trace, hstage, ih]
  exact ⟨hstage text, by rw [htrace], by rw [htrace]⟩

/-- C8 witness: a session holding a Profile, rerun on two different documents. -/
theorem analyzer_cached_C8_witness :
    analysis_stage (fun _ => some "TITLES: X\nSKILLS: Y")
        ⟨some ["Engineer"], some ["Python"]⟩ "document one" =
      ⟨⟨some ["Engineer"], some ["Python"]⟩, 0⟩ ∧
    (session_trace (fun _ => some "TITLES: X\nSKILLS: Y")
        ⟨some ["Engineer"], some ["Python"]⟩ ["document one", "document two"]).1 =
      ⟨some ["Engineer"], some ["Python"]⟩ ∧
    (session_trace (fun _ => some "TITLES: X\nSKILLS: Y")
        ⟨some ["Engineer"], some ["Python"]⟩ ["document one", "document two"]).2 = 0 :=
  analyzer_cached_C8 (fun _ => some "TITLES: X\nSKILLS: Y")
    ⟨some ["Engineer"], some ["Python"]⟩ "document one" ["document one", "document two"] rfl

/-- One run of the analysis stage preserves the C9 invariant: the cached titles
and skills are written together, from one parse of one reply, or not at all. -/
theorem good_profile_step (model : String → Option String) (st : SessionState)
    (text : String) (h : good_profile st) :
    good_profile (analysis_stage model st text).state := by
  by_cases hs : st.job_titles.isSome = true
  · simpa [analysis_stage, hs] using h
  · simp only [Bool.not_eq_true] at hs
    cases hm : analyze_resume_with_gemini model text with
    | none => simpa [analysis_stage, hs, hm] using h
    | some a =>
      by_cases ha : a = ""
      · simpa [analysis_stage, hs, hm, ha] using h
      · right
        exact ⟨a, by simp [analysis_stage, hs, hm, ha], by simp [analysis_stage, hs, hm, ha]⟩

/-- C9: in every reachable session state the cached titles and skills are both
absent or both stem from one parse of one model reply: one stage run preserves
the invariant, and every trace from a fresh session satisfies it. -/
theorem profile_atomic_C9 (model : String → Option String) (st : SessionState)
    (text : String) (texts : List String) (h : good_profile st) :
    good_profile (analysis_stage model st text).state ∧
    good_profile (session_trace model init_session texts).1 := by
  refine ⟨good_profile_step model st text h, ?_⟩
  have aux : ∀ (ts : List String) (s : SessionState), good_profile s →
      good_profile (session_trace model s ts).1 := by
    intro ts
    induction ts with
    | nil => intro s hs; exact hs
    | cons t ts ih =>
      intro s hs
      simpa [session_trace] using ih _ (good_profile_step model s t hs)
  exact aux texts init_session (Or.inl ⟨rfl, rfl⟩)

/-- C9 witness: a fresh session, one concrete run, and a two-run trace. -/
theorem profile_atomic_C9_witness :
    good_profile (analysis_stage (fun _ => some "TITLES: X\nSKILLS: Y")
      init_session "resume text").state ∧
    good_profile (session_trace (fun _ => some "TITLES: X\nSKILLS: Y")
      init_session ["resume text", "other text"]).1 :=
  profile_atomic_C9 (fun _ => some "TITLES: X\nSKILLS: Y") init_session
    "resume text" ["resume text", "other text"] (Or.inl ⟨rfl, rfl⟩)
